import Mathlib

/-!
Verification of the kafka-topic-creator reconciliation tool.

The Go sources are shallowly embedded: pure helpers become Lean functions,
the stateful classification loop of SyncTopics becomes explicit state
passing, broker calls become oracle functions supplied as parameters, and
runtime panics and Go errors are made explicit with Except / Option.
-/

/-- Embedding of kafka.TopicSpecification as used by the tool: topic name,
desired partition count and desired replication factor (Go ints). -/
structure TopicSpecification where
  Topic : String
  NumPartitions : Int
  ReplicationFactor : Int
deriving DecidableEq

/-- Embedding of kafka.PartitionMetadata: a partition id together with the
list of replica broker ids (Go int32 values). -/
structure PartitionMetadata where
  ID : Int
  Replicas : List Int
deriving DecidableEq

/-- Embedding of kafka.TopicMetadata: the topic name and per-partition
metadata; the current partition count of a topic is the length of
Partitions. -/
structure TopicMetadata where
  Topic : String
  Partitions : List PartitionMetadata
deriving DecidableEq

/-- The cluster snapshot built by GetExistingTopics: a mapping from topic
name to its metadata, modelled as an association list.  The metadata fetch
itself (adminClient.GetMetadata) is external I/O; every claim below is
about the behaviour after a successful fetch. -/
def Snapshot := List (String × TopicMetadata)

/-- Lookup of existingTopics[spec.Topic] in the snapshot map. -/
def lookupTopic (snap : Snapshot) (name : String) : Option TopicMetadata :=
  match snap with
  | [] => none
  | (k, v) :: rest => if k = name then some v else lookupTopic rest name

/-- Go int32 conversion, used in the comparison
int32(spec.ReplicationFactor) != existing.Partitions[0].Replicas[0]. -/
def toInt32 (n : Int) : Int :=
  (n + 2 ^ 31) % 2 ^ 32 - 2 ^ 31

/-- Kafka per-topic result codes as consulted by the tool: the code only
distinguishes ErrNoError, ErrTopicAlreadyExists, and everything else. -/
inductive KafkaErrorCode where
  | ErrNoError : KafkaErrorCode
  | ErrTopicAlreadyExists : KafkaErrorCode
  | ErrOther : Int → KafkaErrorCode
deriving DecidableEq

/-- Embedding of kafka.TopicResult: topic name plus its result code. -/
structure TopicResult where
  Topic : String
  Error : KafkaErrorCode
deriving DecidableEq

/-- Character-list embedding of Go strings.HasPre-style matching used by
strings.Contains: does sub occur at the start of hay? -/
def leadsWith : List Char → List Char → Bool
  | [], _ => true
  | _ :: _, [] => false
  | a :: as, b :: bs => a == b && leadsWith as bs

/-- Embedding of Go strings.Contains hay sub on character lists. -/
def containsSub : List Char → List Char → Bool
  | [], sub => leadsWith sub []
  | c :: rest, sub => leadsWith sub (c :: rest) || containsSub rest sub

/-- Embedding of strings.ToLower on the character list of a string. -/
def lowerChars (s : String) : List Char :=
  s.data.map Char.toLower

/-- The retryableErrors table of isRetryableError, verbatim from
manager.go. -/
def retryableErrors : List String :=
  ["connection refused",
   "connection closed",
   "timeout",
   "network is unreachable",
   "no such host",
   "connection reset by peer",
   "broken pipe"]

/-- Embedding of isRetryableError from manager.go.  A Go error is modelled
as Option String carrying the error text (none is the nil error); the
function lower-cases the text and scans the retryableErrors table with
strings.Contains. -/
def isRetryableError : Option String → Bool
  | none => false
  | some errStr =>
    retryableErrors.any (fun retryable => containsSub (lowerChars errStr) retryable.data)

/-- The substring table asserted by the specification for the retry
classifier; it differs from the code's table in the fourth entry
(network unreachable versus network is unreachable). -/
def claimedRetryableErrors : List String :=
  ["connection refused",
   "connection closed",
   "timeout",
   "network unreachable",
   "no such host",
   "connection reset by peer",
   "broken pipe"]

/-- The predicate the specification ascribes to the retry classifier:
true iff the lower-cased error text contains one of the claimed
substrings. -/
def claimedRetryable : Option String → Bool
  | none => false
  | some errStr =>
    claimedRetryableErrors.any (fun retryable => containsSub (lowerChars errStr) retryable.data)

/-- C4 counterexample: the error text "network unreachable" contains the
claimed substring "network unreachable", so the claimed predicate accepts
it, but isRetryableError rejects it because the code's table holds
"network is unreachable" instead.  Hence the claimed iff-characterisation
of isRetryableError is false. -/
theorem c4_counterexample :
    claimedRetryable (some "network unreachable") = true ∧
    containsSub (lowerChars "network unreachable") "network unreachable".data = true ∧
    isRetryableError (some "network unreachable") = false := by
  refine ⟨by decide, by decide, by decide⟩

/-- C4 amended: isRetryableError returns true iff the error is non-null
and its lower-cased text contains one of the seven code substrings, with
"network is unreachable" (not "network unreachable") as the fourth entry;
in particular it accepts "dial tcp: connection refused", rejects
"invalid configuration", and rejects the null error. -/
theorem c4_isRetryableError_characterisation :
    (∀ e : Option String,
      isRetryableError e = true ↔
        ∃ s, e = some s ∧ ∃ sub ∈ retryableErrors, containsSub (lowerChars s) sub.data = true) ∧
    isRetryableError (some "dial tcp: connection refused") = true ∧
    isRetryableError (some "invalid configuration") = false ∧
    isRetryableError none = false := by
  refine ⟨?_, by decide, by decide, by decide⟩
  intro e
  cases e with
  | none => simp [isRetryableError]
  | some s =>
    simp [isRetryableError, List.any_eq_true]

/-- C4 witness: the characterisation applied to a concrete retryable
error text. -/
theorem c4_witness :
    isRetryableError (some "x: connection closed") = true := by
  have h := (c4_isRetryableError_characterisation.1 (some "x: connection closed")).2
  exact h ⟨"x: connection closed", rfl, "connection closed", by decide, by decide⟩

/-- Errors returned by createTopicsFromSpecs: either the wrapped gateway
error of a failed attempt (fmt.Errorf with the attempt number and the
cause) or the aggregated per-topic failure error (error count out of
topic count). -/
inductive CreateError where
  | attemptFailed : Nat → String → CreateError
  | topicsFailed : Nat → Nat → CreateError
deriving DecidableEq

/-- Observable outcome of one createTopicsFromSpecs run: the returned Go
error (none is nil), the number of gateway CreateTopics attempts actually
performed, and the list of back-off sleeps (in seconds) taken before a
retry. -/
structure CreateRunResult where
  returned : Option CreateError
  attemptsMade : Nat
  sleeps : List Nat
deriving DecidableEq

/-- The Admin Gateway's CreateTopics capability, modelled as an oracle
from the (1-based) attempt number and the submitted batch to either a
connection-level error (with its text) or the per-topic results. -/
def GatewayCreate := Nat → List TopicSpecification → Except String (List TopicResult)

/-- successCount accumulated by the result-inspection loop of
createTopicsFromSpecs: results whose code is ErrNoError. -/
def successCountOf : List TopicResult → Nat
  | [] => 0
  | r :: rest =>
    (if r.Error = KafkaErrorCode.ErrNoError then 1 else 0) + successCountOf rest

/-- existsCount accumulated by the result-inspection loop: results whose
code is ErrTopicAlreadyExists. -/
def existsCountOf : List TopicResult → Nat
  | [] => 0
  | r :: rest =>
    (if r.Error = KafkaErrorCode.ErrNoError then 0
     else if r.Error = KafkaErrorCode.ErrTopicAlreadyExists then 1 else 0) + existsCountOf rest

/-- errorCount accumulated by the result-inspection loop: results whose
code is neither ErrNoError nor ErrTopicAlreadyExists. -/
def errorCountOf : List TopicResult → Nat
  | [] => 0
  | r :: rest =>
    (if r.Error = KafkaErrorCode.ErrNoError then 0
     else if r.Error = KafkaErrorCode.ErrTopicAlreadyExists then 0 else 1) + errorCountOf rest

/-- The retry for-loop of createTopicsFromSpecs.  remaining counts the
loop iterations still allowed (maxRetries + 1 - attempt), attempt is the
1-based attempt counter, lastErr and sleeps thread the lastErr variable
and the back-off waits taken so far.  On a gateway error the wrapped
error is recorded and, if the attempt index is below maxRetries and the
error is retryable, the loop sleeps attempt * 1 seconds and retries;
otherwise it breaks.  On gateway success the per-topic results are
inspected and the loop returns nil iff errorCount is zero. -/
def createLoop (cgw : GatewayCreate) (topicSpecs : List TopicSpecification)
    (maxRetries : Nat) : Nat → Nat → Option CreateError → List Nat → CreateRunResult
  | 0, attempt, lastErr, sleeps => ⟨lastErr, attempt - 1, sleeps⟩
  | remaining + 1, attempt, lastErr, sleeps =>
    match cgw attempt topicSpecs with
    | .error e =>
      let lastErrNew := some (CreateError.attemptFailed attempt e)
      if attempt < maxRetries ∧ isRetryableError (some e) = true then
        createLoop cgw topicSpecs maxRetries remaining (attempt + 1) lastErrNew
          (sleeps ++ [attempt * 1])
      else ⟨lastErrNew, attempt, sleeps⟩
    | .ok results =>
      if errorCountOf results = 0 then ⟨none, attempt, sleeps⟩
      else ⟨some (CreateError.topicsFailed (errorCountOf results) topicSpecs.length),
            attempt, sleeps⟩

/-- Embedding of createTopicsFromSpecs: maxRetries is 2 and the loop
starts at attempt 1 with a nil lastErr. -/
def createTopicsFromSpecs (cgw : GatewayCreate)
    (topicSpecs : List TopicSpecification) : CreateRunResult :=
  createLoop cgw topicSpecs 2 2 1 none []

/-- Evaluation of createTopicsFromSpecs when the first gateway call
succeeds. -/
lemma createTopics_eval_ok {cgw : GatewayCreate} {ts : List TopicSpecification}
    {results : List TopicResult} (h1 : cgw 1 ts = .ok results) :
    createTopicsFromSpecs cgw ts =
      if errorCountOf results = 0 then ⟨none, 1, []⟩
      else ⟨some (CreateError.topicsFailed (errorCountOf results) ts.length), 1, []⟩ := by
  simp only [createTopicsFromSpecs, createLoop, h1]

/-- Evaluation of createTopicsFromSpecs when the first gateway call fails
with a non-retryable error: a single attempt, no sleep, the wrapped
first-attempt error. -/
lemma createTopics_eval_err_noretry {cgw : GatewayCreate} {ts : List TopicSpecification}
    {e : String} (h1 : cgw 1 ts = .error e) (hr : isRetryableError (some e) = false) :
    createTopicsFromSpecs cgw ts = ⟨some (CreateError.attemptFailed 1 e), 1, []⟩ := by
  simp only [createTopicsFromSpecs, createLoop, h1]
  rw [if_neg]
  simp [hr]

/-- Evaluation of createTopicsFromSpecs when the first gateway call fails
with a retryable error and the second succeeds. -/
lemma createTopics_eval_retry_ok {cgw : GatewayCreate} {ts : List TopicSpecification}
    {e : String} {results : List TopicResult}
    (h1 : cgw 1 ts = .error e) (hr : isRetryableError (some e) = true)
    (h2 : cgw 2 ts = .ok results) :
    createTopicsFromSpecs cgw ts =
      if errorCountOf results = 0 then ⟨none, 2, [1]⟩
      else ⟨some (CreateError.topicsFailed (errorCountOf results) ts.length), 2, [1]⟩ := by
  simp only [createTopicsFromSpecs, createLoop, h1]
  rw [if_pos ⟨by norm_num, hr⟩]
  simp only [createLoop, h2]
  norm_num

/-- Evaluation of createTopicsFromSpecs when both gateway calls fail and
the first error is retryable: two attempts, one 1-second sleep, the
wrapped second-attempt error (the attempt index has reached the ceiling,
so the second error is terminal whether or not it is retryable). -/
lemma createTopics_eval_retry_err {cgw : GatewayCreate} {ts : List TopicSpecification}
    {e1 e2 : String}
    (h1 : cgw 1 ts = .error e1) (hr : isRetryableError (some e1) = true)
    (h2 : cgw 2 ts = .error e2) :
    createTopicsFromSpecs cgw ts = ⟨some (CreateError.attemptFailed 2 e2), 2, [1]⟩ := by
  simp only [createTopicsFromSpecs, createLoop, h1]
  rw [if_pos ⟨by norm_num, hr⟩]
  simp only [createLoop, h2]
  rw [if_neg]
  · norm_num
  · simp

/-- C2: createTopicsFromSpecs performs at most 2 gateway attempts; a
second attempt occurs iff the first gateway call errors with an error
that isRetryableError accepts (the attempt index 1 being below the
ceiling 2), and it is preceded by a single attempt * 1 = 1 second
back-off sleep; a retryable first failure followed by a clean second
success returns nil after exactly 2 attempts; and when both attempts
fail with the first error retryable, exactly 2 attempts occur and the
wrapped error of the last attempt is returned. -/
theorem c2_createTopics_retry_bound (cgw : GatewayCreate)
    (ts : List TopicSpecification) :
    (createTopicsFromSpecs cgw ts).attemptsMade ≤ 2 ∧
    (2 ≤ (createTopicsFromSpecs cgw ts).attemptsMade ↔
      ∃ e, cgw 1 ts = Except.error e ∧ isRetryableError (some e) = true) ∧
    (∀ e, cgw 1 ts = Except.error e → isRetryableError (some e) = true →
      (createTopicsFromSpecs cgw ts).sleeps = [1]) ∧
    (∀ e, cgw 1 ts = Except.error e → isRetryableError (some e) = false →
      (createTopicsFromSpecs cgw ts).attemptsMade = 1 ∧
      (createTopicsFromSpecs cgw ts).sleeps = [] ∧
      (createTopicsFromSpecs cgw ts).returned = some (CreateError.attemptFailed 1 e)) ∧
    (∀ e results, cgw 1 ts = Except.error e → isRetryableError (some e) = true →
      cgw 2 ts = Except.ok results → errorCountOf results = 0 →
      (createTopicsFromSpecs cgw ts).returned = none ∧
      (createTopicsFromSpecs cgw ts).attemptsMade = 2) ∧
    (∀ e1 e2, cgw 1 ts = Except.error e1 → isRetryableError (some e1) = true →
      cgw 2 ts = Except.error e2 →
      (createTopicsFromSpecs cgw ts).attemptsMade = 2 ∧
      (createTopicsFromSpecs cgw ts).returned = some (CreateError.attemptFailed 2 e2)) := by
  refine ⟨?_, ?_, ?_, ?_, ?_, ?_⟩
  · cases h1 : cgw 1 ts with
    | ok results =>
      rw [createTopics_eval_ok h1]
      split <;> norm_num
    | error e =>
      cases hr : isRetryableError (some e) with
      | false =>
        rw [createTopics_eval_err_noretry h1 hr]
        norm_num
      | true =>
        cases h2 : cgw 2 ts with
        | ok results =>
          rw [createTopics_eval_retry_ok h1 hr h2]
          split <;> norm_num
        | error e2 => rw [createTopics_eval_retry_err h1 hr h2]
  · constructor
    · intro hge
      cases h1 : cgw 1 ts with
      | ok results =>
        rw [createTopics_eval_ok h1] at hge
        revert hge
        split <;> norm_num
      | error e =>
        cases hr : isRetryableError (some e) with
        | false =>
          rw [createTopics_eval_err_noretry h1 hr] at hge
          norm_num at hge
        | true => exact ⟨e, rfl, hr⟩
    · rintro ⟨e, h1, hr⟩
      cases h2 : cgw 2 ts with
      | ok results =>
        rw [createTopics_eval_retry_ok h1 hr h2]
        split <;> norm_num
      | error e2 =>
        rw [createTopics_eval_retry_err h1 hr h2]
  · intro e h1 hr
    cases h2 : cgw 2 ts with
    | ok results =>
      rw [createTopics_eval_retry_ok h1 hr h2]
      split <;> norm_num
    | error e2 => rw [createTopics_eval_retry_err h1 hr h2]
  · intro e h1 hr
    rw [createTopics_eval_err_noretry h1 hr]
    exact ⟨rfl, rfl, rfl⟩
  · intro e results h1 hr h2 hec
    rw [createTopics_eval_retry_ok h1 hr h2, if_pos hec]
    exact ⟨rfl, rfl⟩
  · intro e1 e2 h1 hr h2
    rw [createTopics_eval_retry_err h1 hr h2]
    exact ⟨rfl, rfl⟩

/-- Fixed gateway for the C2 witness: a retryable connection error on
attempt 1, an empty clean result set afterwards. -/
def gwRetryThenOk : GatewayCreate :=
  fun attempt _ => if attempt = 1 then Except.error "dial tcp: connection refused"
                   else Except.ok []

/-- C2 witness: against gwRetryThenOk the run returns nil after exactly
2 attempts with a single 1-second back-off. -/
theorem c2_witness :
    (createTopicsFromSpecs gwRetryThenOk []).returned = none ∧
    (createTopicsFromSpecs gwRetryThenOk []).attemptsMade = 2 ∧
    (createTopicsFromSpecs gwRetryThenOk []).sleeps = [1] := by
  have h := c2_createTopics_retry_bound gwRetryThenOk []
  have h5 := h.2.2.2.2.1 "dial tcp: connection refused" [] rfl (by decide) rfl rfl
  have h3 := h.2.2.1 "dial tcp: connection refused" rfl (by decide)
  exact ⟨h5.1, h5.2, h3⟩

/-- Counting lemma: successCount is the number of results coded
ErrNoError. -/
lemma successCountOf_eq_filter (results : List TopicResult) :
    successCountOf results =
      (results.filter fun r => decide (r.Error = KafkaErrorCode.ErrNoError)).length := by
  induction results with
  | nil => rfl
  | cons r rest ih =>
    by_cases hr : r.Error = KafkaErrorCode.ErrNoError <;>
      simp [successCountOf, List.filter_cons, hr, ih] <;> omega

/-- Counting lemma: existsCount is the number of results coded
ErrTopicAlreadyExists. -/
lemma existsCountOf_eq_filter (results : List TopicResult) :
    existsCountOf results =
      (results.filter fun r => decide (r.Error = KafkaErrorCode.ErrTopicAlreadyExists)).length := by
  induction results with
  | nil => rfl
  | cons r rest ih =>
    by_cases hr : r.Error = KafkaErrorCode.ErrNoError
    · simp [existsCountOf, List.filter_cons, hr, ih]
    · by_cases hx : r.Error = KafkaErrorCode.ErrTopicAlreadyExists <;>
        simp [existsCountOf, List.filter_cons, hr, hx, ih] <;> omega

/-- Counting lemma: errorCount is the number of results whose code is
neither ErrNoError nor ErrTopicAlreadyExists. -/
lemma errorCountOf_eq_filter (results : List TopicResult) :
    errorCountOf results =
      (results.filter fun r => decide (r.Error ≠ KafkaErrorCode.ErrNoError ∧
        r.Error ≠ KafkaErrorCode.ErrTopicAlreadyExists)).length := by
  induction results with
  | nil => rfl
  | cons r rest ih =>
    by_cases hr : r.Error = KafkaErrorCode.ErrNoError
    · simp [errorCountOf, List.filter_cons, hr, ih]
    · by_cases hx : r.Error = KafkaErrorCode.ErrTopicAlreadyExists <;>
        simp [errorCountOf, List.filter_cons, hr, hx, ih] <;> omega

/-- C3: when the gateway call succeeds on the first attempt, every
per-topic result is inspected: successCount, existsCount and errorCount
are exactly the numbers of results coded ErrNoError,
ErrTopicAlreadyExists, and anything else, over the whole result list (so
one topic's error never stops inspection of its siblings, and
already-exists results are benign); the run returns nil iff errorCount
is zero, and a positive errorCount yields the aggregated per-topic
failure error after exactly that one gateway attempt. -/
theorem c3_per_topic_result_inspection (cgw : GatewayCreate)
    (ts : List TopicSpecification) (results : List TopicResult)
    (h1 : cgw 1 ts = Except.ok results) :
    (createTopicsFromSpecs cgw ts).attemptsMade = 1 ∧
    ((createTopicsFromSpecs cgw ts).returned = none ↔ errorCountOf results = 0) ∧
    (0 < errorCountOf results →
      (createTopicsFromSpecs cgw ts).returned =
        some (CreateError.topicsFailed (errorCountOf results) ts.length)) ∧
    successCountOf results =
      (results.filter fun r => decide (r.Error = KafkaErrorCode.ErrNoError)).length ∧
    existsCountOf results =
      (results.filter fun r => decide (r.Error = KafkaErrorCode.ErrTopicAlreadyExists)).length ∧
    errorCountOf results =
      (results.filter fun r => decide (r.Error ≠ KafkaErrorCode.ErrNoError ∧
        r.Error ≠ KafkaErrorCode.ErrTopicAlreadyExists)).length := by
  refine ⟨?_, ?_, ?_, ?_, ?_, ?_⟩
  · rw [createTopics_eval_ok h1]
    split <;> rfl
  · rw [createTopics_eval_ok h1]
    split <;> rename_i hec <;> simp [hec]
  · intro hpos
    rw [createTopics_eval_ok h1, if_neg (by omega)]
  · exact successCountOf_eq_filter results
  · exact existsCountOf_eq_filter results
  · exact errorCountOf_eq_filter results

/-- Fixed gateway for the C3 witness: an immediate success whose result
set mixes a created topic, an already-existing topic, and one broker
rejection. -/
def gwMixedResults : GatewayCreate :=
  fun _ _ => Except.ok
    [⟨"a", KafkaErrorCode.ErrNoError⟩,
     ⟨"b", KafkaErrorCode.ErrTopicAlreadyExists⟩,
     ⟨"c", KafkaErrorCode.ErrOther 38⟩]

/-- C3 witness: on the mixed result set the counters are 1 / 1 / 1, a
single attempt is made, and the aggregated error reports 1 error. -/
theorem c3_witness :
    (createTopicsFromSpecs gwMixedResults []).attemptsMade = 1 ∧
    (createTopicsFromSpecs gwMixedResults []).returned =
      some (CreateError.topicsFailed 1 0) := by
  have h := c3_per_topic_result_inspection gwMixedResults []
    [⟨"a", KafkaErrorCode.ErrNoError⟩,
     ⟨"b", KafkaErrorCode.ErrTopicAlreadyExists⟩,
     ⟨"c", KafkaErrorCode.ErrOther 38⟩] rfl
  exact ⟨h.1, h.2.2.1 (by decide)⟩

/-- Go runtime panics surfaced by the embedding; the only panic reachable
in SyncTopics is the out-of-range index on Partitions[0].Replicas[0]. -/
inductive GoPanic where
  | indexOutOfRange : GoPanic
deriving DecidableEq

/-- Embedding of the helper struct topicUpdateInfo of SyncTopics. -/
structure topicUpdateInfo where
  topic : String
  current : TopicMetadata
  desired : TopicSpecification
  needsPartitionIncrease : Bool
deriving DecidableEq

/-- Embedding of the helper struct topicScaleDownInfo of SyncTopics. -/
structure topicScaleDownInfo where
  topic : String
  currentPartitions : Int
  desiredPartitions : Int
deriving DecidableEq

/-- The accumulator variables of the SyncTopics analysis loop:
topicsToCreate, topicsToUpdate, cannotScaleDown, unchangedCount, plus the
topics for which the replication-mismatch warning was printed. -/
structure AnalyzeState where
  topicsToCreate : List TopicSpecification
  topicsToUpdate : List topicUpdateInfo
  cannotScaleDown : List topicScaleDownInfo
  unchangedCount : Nat
  replicationWarnings : List String
deriving DecidableEq

/-- Initial accumulator state of the analysis loop. -/
def initialAnalyzeState : AnalyzeState := ⟨[], [], [], 0, []⟩

/-- The replication-factor check of SyncTopics:
len(existing.Partitions) > 0 && int32(spec.ReplicationFactor) !=
existing.Partitions[0].Replicas[0].  When the first partition exists its
first replica is indexed without a guard, so an empty replica list is a
runtime panic. -/
def repCheck (spec : TopicSpecification) (existing : TopicMetadata) :
    Except GoPanic Bool :=
  match existing.Partitions with
  | [] => .ok false
  | p0 :: _ =>
    match p0.Replicas with
    | [] => .error GoPanic.indexOutOfRange
    | r0 :: _ => .ok (decide (toInt32 spec.ReplicationFactor ≠ r0))

/-- One iteration of the SyncTopics analysis loop over a desired spec:
missing topics go to topicsToCreate; for existing topics the desired
partition count is compared with len(existing.Partitions) (greater marks
an update, smaller appends a cannotScaleDown report), then the
replication check runs, then the update is queued or the unchanged
counter incremented. -/
def analyzeStep (snap : Snapshot) (st : AnalyzeState)
    (spec : TopicSpecification) : Except GoPanic AnalyzeState :=
  match lookupTopic snap spec.Topic with
  | none => .ok { st with topicsToCreate := st.topicsToCreate ++ [spec] }
  | some existing =>
    let currentPartitions : Int := (existing.Partitions.length : Int)
    let needsUpdate : Bool := decide (spec.NumPartitions > currentPartitions)
    let updateInfo : topicUpdateInfo :=
      { topic := spec.Topic, current := existing, desired := spec,
        needsPartitionIncrease := needsUpdate }
    let st1 :=
      if spec.NumPartitions > currentPartitions then st
      else if spec.NumPartitions < currentPartitions then
        { st with cannotScaleDown := st.cannotScaleDown ++
            [⟨spec.Topic, currentPartitions, spec.NumPartitions⟩] }
      else st
    match repCheck spec existing with
    | .error p => .error p
    | .ok warn =>
      let st2 :=
        if warn then
          { st1 with replicationWarnings := st1.replicationWarnings ++ [spec.Topic] }
        else st1
      .ok (if needsUpdate then
             { st2 with topicsToUpdate := st2.topicsToUpdate ++ [updateInfo] }
           else if spec.NumPartitions = currentPartitions then
             { st2 with unchangedCount := st2.unchangedCount + 1 }
           else st2)

/-- The full analysis loop of SyncTopics over the desired spec list. -/
def analyzeTopics (snap : Snapshot) :
    AnalyzeState → List TopicSpecification → Except GoPanic AnalyzeState
  | st, [] => .ok st
  | st, spec :: rest =>
    match analyzeStep snap st spec with
    | .error p => .error p
    | .ok stNew => analyzeTopics snap stNew rest

/-- Specification-side predicate: the spec's name is absent from the
snapshot, so it classifies as ToCreate. -/
def specIsCreate (snap : Snapshot) (s : TopicSpecification) : Bool :=
  (lookupTopic snap s.Topic).isNone

/-- Specification-side view of the update directive produced for a spec:
present topic with a strictly greater desired partition count. -/
def updateInfoOf (snap : Snapshot) (s : TopicSpecification) : Option topicUpdateInfo :=
  match lookupTopic snap s.Topic with
  | none => none
  | some ex =>
    if s.NumPartitions > (ex.Partitions.length : Int) then
      some { topic := s.Topic, current := ex, desired := s, needsPartitionIncrease := true }
    else none

/-- Specification-side view of the scale-down report produced for a spec:
present topic with a strictly smaller desired partition count; it carries
the topic name, the current and the desired partition counts. -/
def scaleDownOf (snap : Snapshot) (s : TopicSpecification) : Option topicScaleDownInfo :=
  match lookupTopic snap s.Topic with
  | none => none
  | some ex =>
    if s.NumPartitions < (ex.Partitions.length : Int) then
      some ⟨s.Topic, (ex.Partitions.length : Int), s.NumPartitions⟩
    else none

/-- Specification-side predicate: present topic whose desired partition
count equals the current one (the Unchanged classification). -/
def specIsUnchanged (snap : Snapshot) (s : TopicSpecification) : Bool :=
  match lookupTopic snap s.Topic with
  | none => false
  | some ex => decide (s.NumPartitions = (ex.Partitions.length : Int))

/-- Specification-side view of the replication-mismatch warning for a
spec (none when the topic is absent, has no partitions, or matches). -/
def warnOf (snap : Snapshot) (s : TopicSpecification) : Option String :=
  match lookupTopic snap s.Topic with
  | none => none
  | some ex =>
    match ex.Partitions with
    | [] => none
    | p0 :: _ =>
      match p0.Replicas with
      | [] => none
      | r0 :: _ =>
        if toInt32 s.ReplicationFactor ≠ r0 then some s.Topic else none

/-- Effect of a single analysis iteration on a successful step: each
accumulator grows by exactly the element the specification-side view
assigns to the spec. -/
lemma analyzeStep_ok_effect {snap : Snapshot} {st st' : AnalyzeState}
    {s : TopicSpecification} (h : analyzeStep snap st s = Except.ok st') :
    st'.topicsToCreate = st.topicsToCreate ++ (if specIsCreate snap s then [s] else []) ∧
    st'.topicsToUpdate = st.topicsToUpdate ++ (updateInfoOf snap s).toList ∧
    st'.cannotScaleDown = st.cannotScaleDown ++ (scaleDownOf snap s).toList ∧
    st'.unchangedCount = st.unchangedCount + (if specIsUnchanged snap s then 1 else 0) ∧
    st'.replicationWarnings = st.replicationWarnings ++ (warnOf snap s).toList := by
  cases hl : lookupTopic snap s.Topic with
  | none =>
    simp only [analyzeStep, hl] at h
    rw [Except.ok.injEq] at h
    subst h
    simp [specIsCreate, updateInfoOf, scaleDownOf, specIsUnchanged, warnOf, hl]
  | some ex =>
    have hwarn : ∃ w : Bool, repCheck s ex = Except.ok w ∧
        warnOf snap s = (if w then some s.Topic else none) := by
      cases hp : ex.Partitions with
      | nil =>
        refine ⟨false, ?_, ?_⟩
        · simp [repCheck, hp]
        · simp [warnOf, hl, hp]
      | cons p0 ps =>
        cases hr : p0.Replicas with
        | nil =>
          exfalso
          simp only [analyzeStep, hl, repCheck, hp, hr] at h
          exact Except.noConfusion h
        | cons r0 rs =>
          refine ⟨decide (toInt32 s.ReplicationFactor ≠ r0), ?_, ?_⟩
          · simp [repCheck, hp, hr]
          · by_cases hw : toInt32 s.ReplicationFactor ≠ r0 <;>
              simp [warnOf, hl, hp, hr, hw]
    obtain ⟨w, hrep, hwOf⟩ := hwarn
    rcases lt_trichotomy s.NumPartitions ((ex.Partitions.length : Int)) with hcmp | hcmp | hcmp
    · have h1 : ¬ s.NumPartitions > (ex.Partitions.length : Int) := by omega
      have h2 : ¬ s.NumPartitions = (ex.Partitions.length : Int) := by omega
      simp only [analyzeStep, hl, hrep, decide_eq_true_eq,
        if_neg h1, if_pos hcmp, if_neg h2] at h
      rw [Except.ok.injEq] at h
      subst h
      cases w <;>
        simp [specIsCreate, updateInfoOf, scaleDownOf, specIsUnchanged, hwOf,
          hl, h1, h2, hcmp]
    · have h1 : ¬ s.NumPartitions > (ex.Partitions.length : Int) := by omega
      have h2 : ¬ s.NumPartitions < (ex.Partitions.length : Int) := by omega
      simp only [analyzeStep, hl, hrep, decide_eq_true_eq,
        if_neg h1, if_neg h2, if_pos hcmp] at h
      rw [Except.ok.injEq] at h
      subst h
      cases w <;>
        simp [specIsCreate, updateInfoOf, scaleDownOf, specIsUnchanged, hwOf,
          hl, h1, h2, hcmp]
    · have h1 : s.NumPartitions > (ex.Partitions.length : Int) := hcmp
      have h2 : ¬ s.NumPartitions = (ex.Partitions.length : Int) := by omega
      have h3 : ¬ s.NumPartitions < (ex.Partitions.length : Int) := by omega
      simp only [analyzeStep, hl, hrep, decide_eq_true_eq, if_pos h1] at h
      rw [Except.ok.injEq] at h
      subst h
      cases w <;>
        simp [specIsCreate, updateInfoOf, scaleDownOf, specIsUnchanged, hwOf,
          hl, h1, h2, h3, hcmp]

/-- Inversion of a successful analysis run over a cons cell. -/
lemma analyzeTopics_ok_cons {snap : Snapshot} {st st' : AnalyzeState}
    {s : TopicSpecification} {rest : List TopicSpecification}
    (h : analyzeTopics snap st (s :: rest) = Except.ok st') :
    ∃ st1, analyzeStep snap st s = Except.ok st1 ∧
      analyzeTopics snap st1 rest = Except.ok st' := by
  cases hstep : analyzeStep snap st s with
  | error p =>
    simp only [analyzeTopics, hstep] at h
    exact Except.noConfusion h
  | ok st1 =>
    refine ⟨st1, rfl, ?_⟩
    simpa [analyzeTopics, hstep] using h

/-- Characterisation of a completed analysis pass: relative to the
starting accumulators, topicsToCreate, topicsToUpdate, cannotScaleDown
and the warning list are the order-preserving selections of the desired
list given by the specification-side views, and unchangedCount counts
the Unchanged specs. -/
lemma analyzeTopics_ok_characterisation {snap : Snapshot}
    {ds : List TopicSpecification} {st0 st : AnalyzeState}
    (h : analyzeTopics snap st0 ds = Except.ok st) :
    st.topicsToCreate = st0.topicsToCreate ++ ds.filter (specIsCreate snap) ∧
    st.topicsToUpdate = st0.topicsToUpdate ++ ds.filterMap (updateInfoOf snap) ∧
    st.cannotScaleDown = st0.cannotScaleDown ++ ds.filterMap (scaleDownOf snap) ∧
    st.unchangedCount = st0.unchangedCount + (ds.filter (specIsUnchanged snap)).length ∧
    st.replicationWarnings = st0.replicationWarnings ++ ds.filterMap (warnOf snap) := by
  revert h
  induction ds generalizing st0 with
  | nil =>
    intro h
    simp only [analyzeTopics, Except.ok.injEq] at h
    subst h
    simp
  | cons s rest ih =>
    intro h
    obtain ⟨st1, hstep, hrest⟩ := analyzeTopics_ok_cons h
    obtain ⟨e1, e2, e3, e4, e5⟩ := analyzeStep_ok_effect hstep
    obtain ⟨i1, i2, i3, i4, i5⟩ := ih hrest
    refine ⟨?_, ?_, ?_, ?_, ?_⟩
    · rw [i1, e1, List.filter_cons]
      by_cases hc : specIsCreate snap s <;> simp [hc]
    · rw [i2, e2, List.filterMap_cons]
      cases hu : updateInfoOf snap s <;> simp [hu]
    · rw [i3, e3, List.filterMap_cons]
      cases hu : scaleDownOf snap s <;> simp [hu]
    · rw [i4, e4, List.filter_cons]
      by_cases hc : specIsUnchanged snap s <;> simp [hc] <;> omega
    · rw [i5, e5, List.filterMap_cons]
      cases hu : warnOf snap s <;> simp [hu]

/-- C1: a completed SyncTopics classification pass maps every desired
spec to exactly one classification — absent name to ToCreate (a Boolean
test of the name alone), present with greater desired partition count to
an update directive, strictly smaller to a cannotScaleDown report
carrying the name with the current and desired partition counts, equal
to the unchanged counter — and each output list is the order-preserving
selection (filter / filterMap) of the desired list. -/
theorem c1_classification (snap : Snapshot) (ds : List TopicSpecification)
    (st : AnalyzeState)
    (h : analyzeTopics snap initialAnalyzeState ds = Except.ok st) :
    st.topicsToCreate = ds.filter (specIsCreate snap) ∧
    st.topicsToUpdate = ds.filterMap (updateInfoOf snap) ∧
    st.cannotScaleDown = ds.filterMap (scaleDownOf snap) ∧
    st.unchangedCount = (ds.filter (specIsUnchanged snap)).length ∧
    (∀ s : TopicSpecification,
      ((if specIsCreate snap s then 1 else 0) : Nat) +
      (if (updateInfoOf snap s).isSome then 1 else 0) +
      (if (scaleDownOf snap s).isSome then 1 else 0) +
      (if specIsUnchanged snap s then 1 else 0) = 1) := by
  obtain ⟨i1, i2, i3, i4, i5⟩ := analyzeTopics_ok_characterisation h
  refine ⟨by simpa [initialAnalyzeState] using i1,
          by simpa [initialAnalyzeState] using i2,
          by simpa [initialAnalyzeState] using i3,
          by simpa [initialAnalyzeState] using i4, ?_⟩
  intro s
  cases hl : lookupTopic snap s.Topic with
  | none => simp [specIsCreate, updateInfoOf, scaleDownOf, specIsUnchanged, hl]
  | some ex =>
    rcases lt_trichotomy s.NumPartitions ((ex.Partitions.length : Int)) with hc | hc | hc
    · have h1 : ¬ s.NumPartitions > (ex.Partitions.length : Int) := by omega
      have h2 : ¬ s.NumPartitions = (ex.Partitions.length : Int) := by omega
      simp [specIsCreate, updateInfoOf, scaleDownOf, specIsUnchanged, hl, h1, h2, hc]
    · have h1 : ¬ s.NumPartitions > (ex.Partitions.length : Int) := by omega
      have h2 : ¬ s.NumPartitions < (ex.Partitions.length : Int) := by omega
      simp [specIsCreate, updateInfoOf, scaleDownOf, specIsUnchanged, hl, h1, h2, hc]
    · have h1 : ¬ s.NumPartitions < (ex.Partitions.length : Int) := by omega
      have h2 : ¬ s.NumPartitions = (ex.Partitions.length : Int) := by omega
      simp [specIsCreate, updateInfoOf, scaleDownOf, specIsUnchanged, hl, h1, h2, hc]

/-- Scenario snapshot of the specification: topic A with one partition,
topic B with one partition, each replica-1, and no topic C. -/
def scenarioSnapshot : Snapshot :=
  [("A", ⟨"A", [⟨0, [1]⟩]⟩), ("B", ⟨"B", [⟨0, [1]⟩]⟩)]

/-- Scenario desired list of the specification: A to 3 partitions, B at
1 partition, C new with 6 partitions. -/
def scenarioSpecs : List TopicSpecification :=
  [⟨"A", 3, 1⟩, ⟨"B", 1, 1⟩, ⟨"C", 6, 1⟩]

/-- The analysis state the scenario run ends in: C queued for creation,
A queued for a partition increase, nothing in cannotScaleDown, one
unchanged topic, no warnings. -/
def scenarioState : AnalyzeState :=
  ⟨[⟨"C", 6, 1⟩], [⟨"A", ⟨"A", [⟨0, [1]⟩]⟩, ⟨"A", 3, 1⟩, true⟩], [], 1, []⟩

/-- C1 witness: the classification theorem applied to the specification
scenario (A needs an increase, B is unchanged, C is created). -/
theorem c1_witness :
    scenarioState.topicsToCreate = scenarioSpecs.filter (specIsCreate scenarioSnapshot) ∧
    scenarioState.topicsToUpdate = scenarioSpecs.filterMap (updateInfoOf scenarioSnapshot) ∧
    scenarioState.cannotScaleDown = scenarioSpecs.filterMap (scaleDownOf scenarioSnapshot) ∧
    scenarioState.unchangedCount =
      (scenarioSpecs.filter (specIsUnchanged scenarioSnapshot)).length := by
  have h := c1_classification scenarioSnapshot scenarioSpecs scenarioState (by rfl)
  exact ⟨h.1, h.2.1, h.2.2.1, h.2.2.2.1⟩

/-- Embedding of kafka.PartitionsSpecification: the directive passed to
CreatePartitions. -/
structure PartitionsSpecification where
  Topic : String
  IncreaseTo : Int
deriving DecidableEq

/-- The Admin Gateway's CreatePartitions capability, an oracle from the
submitted directive batch to a connection-level error or per-topic
results. -/
def GatewayPartitions := List PartitionsSpecification → Except String (List TopicResult)

/-- Errors returned by increaseTopicPartitions: the wrapped gateway
error, or the first per-topic result whose code is not ErrNoError. -/
inductive UpdateError where
  | gatewayFailed : String → String → UpdateError
  | resultFailed : String → KafkaErrorCode → UpdateError
deriving DecidableEq

/-- Embedding of increaseTopicPartitions: builds the single-directive
batch [{topic, IncreaseTo: newPartitionCount}], issues one
CreatePartitions call, and fails on a gateway error or on the first
per-topic result code that is not ErrNoError.  The second component
records the gateway calls issued (always exactly this one batch). -/
def increaseTopicPartitions (pgw : GatewayPartitions) (topicName : String)
    (newPartitionCount : Int) :
    Option UpdateError × List (List PartitionsSpecification) :=
  let partitionSpec : List PartitionsSpecification := [⟨topicName, newPartitionCount⟩]
  match pgw partitionSpec with
  | .error e => (some (UpdateError.gatewayFailed topicName e), [partitionSpec])
  | .ok results =>
    match results.find? (fun r => decide (r.Error ≠ KafkaErrorCode.ErrNoError)) with
    | some r => (some (UpdateError.resultFailed r.Topic r.Error), [partitionSpec])
    | none => (none, [partitionSpec])

/-- Accumulated outcome of the update phase of SyncTopics. -/
structure UpdatePhaseResult where
  updatedCount : Nat
  failedCount : Nat
  calls : List (List PartitionsSpecification)
deriving DecidableEq

/-- The update loop of SyncTopics: for each queued topicUpdateInfo with
needsPartitionIncrease set, call increaseTopicPartitions; a failure
increments the failure tally and a success the updated tally, and the
loop always continues with the remaining queued updates. -/
def runUpdates (pgw : GatewayPartitions) : List topicUpdateInfo → UpdatePhaseResult
  | [] => ⟨0, 0, []⟩
  | u :: rest =>
    if u.needsPartitionIncrease then
      match increaseTopicPartitions pgw u.topic u.desired.NumPartitions with
      | (some _, calls) =>
        let tail := runUpdates pgw rest
        ⟨tail.updatedCount, tail.failedCount + 1, calls ++ tail.calls⟩
      | (none, calls) =>
        let tail := runUpdates pgw rest
        ⟨tail.updatedCount + 1, tail.failedCount, calls ++ tail.calls⟩
    else runUpdates pgw rest

/-- Observable outcome of one SyncTopics run after a successful metadata
fetch: the returned error (modelled as the failure count it carries),
the summary counters, the scale-down report list and whether the report
block was printed, the replication warnings, and the full trace of
gateway activity (the batch handed to the create path with its attempt
count, and every CreatePartitions call). -/
structure SyncOutcome where
  returnedFailures : Option Nat
  createdCount : Nat
  updatedCount : Nat
  unchangedCount : Nat
  failedCount : Nat
  cannotScaleDown : List topicScaleDownInfo
  scaleDownReportEmitted : Bool
  replicationWarnings : List String
  createCallSpecs : List TopicSpecification
  createAttemptCount : Nat
  partitionCalls : List (List PartitionsSpecification)
deriving DecidableEq

/-- Execution phases of SyncTopics, from the finished analysis state:
batch-create the missing topics through createTopicsFromSpecs (counting
the whole batch as failed when it returns an error), run the queued
partition increases one by one, always print the cannotScaleDown report
when that list is non-empty, and return an error iff the aggregate
failure count is positive. -/
def syncAssemble (cgw : GatewayCreate) (pgw : GatewayPartitions)
    (st : AnalyzeState) : SyncOutcome :=
    let createRun : Option CreateRunResult :=
      if 0 < st.topicsToCreate.length then some (createTopicsFromSpecs cgw st.topicsToCreate)
      else none
    let createdCount : Nat :=
      match createRun with
      | some r => if r.returned = none then st.topicsToCreate.length else 0
      | none => 0
    let createFailed : Nat :=
      match createRun with
      | some r => if r.returned = none then 0 else st.topicsToCreate.length
      | none => 0
    let upd := runUpdates pgw st.topicsToUpdate
    let failedCount := createFailed + upd.failedCount
    { returnedFailures := if 0 < failedCount then some failedCount else none
      createdCount := createdCount
      updatedCount := upd.updatedCount
      unchangedCount := st.unchangedCount
      failedCount := failedCount
      cannotScaleDown := st.cannotScaleDown
      scaleDownReportEmitted := decide (0 < st.cannotScaleDown.length)
      replicationWarnings := st.replicationWarnings
      createCallSpecs := if 0 < st.topicsToCreate.length then st.topicsToCreate else []
      createAttemptCount :=
        match createRun with
        | some r => r.attemptsMade
        | none => 0
      partitionCalls := upd.calls }

/-- Embedding of SyncTopics proper: the classification pass followed by
the execution phases, with the classification panic surfaced. -/
def syncTopics (snap : Snapshot) (cgw : GatewayCreate) (pgw : GatewayPartitions)
    (topicSpecs : List TopicSpecification) : Except GoPanic SyncOutcome :=
  match analyzeTopics snap initialAnalyzeState topicSpecs with
  | .error p => .error p
  | .ok st => .ok (syncAssemble cgw pgw st)

/-- Idle create gateway used in concrete runs: immediate empty success. -/
def cgwIdle : GatewayCreate := fun _ _ => Except.ok []

/-- Idle partitions gateway used in concrete runs: immediate empty
success. -/
def pgwIdle : GatewayPartitions := fun _ => Except.ok []

/-- Snapshot with a matched topic whose first partition has an empty
replica list. -/
def panicSnapshot : Snapshot := [("events", ⟨"events", [⟨0, []⟩]⟩)]

/-- Desired list naming that topic. -/
def panicSpecs : List TopicSpecification := [⟨"events", 1, 1⟩]

/-- C10: the replication-mismatch check guards only
len(existing.Partitions) > 0 and then indexes Partitions[0].Replicas[0]
unguarded: on a snapshot containing a matched topic whose first partition
has no replicas, SyncTopics hits the out-of-range index (a runtime
panic) instead of returning an outcome or error value. -/
theorem c10_unguarded_replica_index :
    lookupTopic panicSnapshot "events" = some ⟨"events", [⟨0, []⟩]⟩ ∧
    0 < ([⟨0, []⟩] : List PartitionMetadata).length ∧
    syncTopics panicSnapshot cgwIdle pgwIdle panicSpecs =
      Except.error GoPanic.indexOutOfRange := by
  exact ⟨rfl, by decide, rfl⟩

/-- The CreatePartitions call trace of increaseTopicPartitions is always
exactly one call carrying exactly the one directive. -/
lemma increaseTopicPartitions_calls (pgw : GatewayPartitions) (t : String) (n : Int) :
    (increaseTopicPartitions pgw t n).2 = [[⟨t, n⟩]] := by
  unfold increaseTopicPartitions
  cases h : pgw [⟨t, n⟩] with
  | error e => simp [h]
  | ok results =>
    simp only [h]
    cases results.find? (fun r => decide (r.Error ≠ KafkaErrorCode.ErrNoError)) <;> simp

/-- Characterisation of the update loop over a queue whose entries all
carry the needsPartitionIncrease flag (as every queued entry does): one
single-directive gateway call per entry in order, and the failed and
updated tallies count the failing and succeeding increases. -/
lemma runUpdates_characterisation {pgw : GatewayPartitions} {us : List topicUpdateInfo}
    (hall : ∀ u ∈ us, u.needsPartitionIncrease = true) :
    (runUpdates pgw us).calls =
      us.map (fun u => [⟨u.topic, u.desired.NumPartitions⟩]) ∧
    (runUpdates pgw us).failedCount = (us.filter (fun u =>
      (increaseTopicPartitions pgw u.topic u.desired.NumPartitions).1.isSome)).length ∧
    (runUpdates pgw us).updatedCount = (us.filter (fun u =>
      (increaseTopicPartitions pgw u.topic u.desired.NumPartitions).1.isNone)).length := by
  induction us with
  | nil => simp [runUpdates]
  | cons u rest ih =>
    have hu : u.needsPartitionIncrease = true := hall u (List.mem_cons_self u rest)
    obtain ⟨i1, i2, i3⟩ := ih (fun v hv => hall v (List.mem_cons_of_mem u hv))
    have hcalls := increaseTopicPartitions_calls pgw u.topic u.desired.NumPartitions
    cases hinc : (increaseTopicPartitions pgw u.topic u.desired.NumPartitions).1 with
    | some e =>
      have hpair : increaseTopicPartitions pgw u.topic u.desired.NumPartitions =
          (some e, [[⟨u.topic, u.desired.NumPartitions⟩]]) := by
        rw [← hinc, ← hcalls]
      refine ⟨?_, ?_, ?_⟩ <;>
        simp [runUpdates, hu, hpair, List.filter_cons, hinc, i1, i2, i3]
    | none =>
      have hpair : increaseTopicPartitions pgw u.topic u.desired.NumPartitions =
          (none, [[⟨u.topic, u.desired.NumPartitions⟩]]) := by
        rw [← hinc, ← hcalls]
      refine ⟨?_, ?_, ?_⟩ <;>
        simp [runUpdates, hu, hpair, List.filter_cons, hinc, i1, i2, i3]

/-- Every entry the classification pass queues for update carries the
needsPartitionIncrease flag. -/
lemma updateInfoOf_flag {snap : Snapshot} {s : TopicSpecification} {u : topicUpdateInfo}
    (hs : updateInfoOf snap s = some u) : u.needsPartitionIncrease = true := by
  cases hl : lookupTopic snap s.Topic with
  | none =>
    simp only [updateInfoOf, hl] at hs
    exact Option.noConfusion hs
  | some ex =>
    simp only [updateInfoOf, hl] at hs
    by_cases hgt : s.NumPartitions > (ex.Partitions.length : Int)
    · rw [if_pos hgt, Option.some.injEq] at hs
      rw [← hs]
    · rw [if_neg hgt] at hs
      exact Option.noConfusion hs

/-- The toCreate list of a classification pass, specification side. -/
def toCreateOf (snap : Snapshot) (ds : List TopicSpecification) : List TopicSpecification :=
  ds.filter (specIsCreate snap)

/-- The toUpdate queue of a classification pass, specification side. -/
def toUpdateOf (snap : Snapshot) (ds : List TopicSpecification) : List topicUpdateInfo :=
  ds.filterMap (updateInfoOf snap)

/-- The cannotScaleDown report of a classification pass, specification
side. -/
def scaleDownListOf (snap : Snapshot) (ds : List TopicSpecification) : List topicScaleDownInfo :=
  ds.filterMap (scaleDownOf snap)

/-- Failures contributed by the create phase: the whole toCreate batch
when createTopicsFromSpecs returns an error, nothing otherwise (or when
there is nothing to create). -/
def createPhaseFailures (cgw : GatewayCreate) (snap : Snapshot)
    (ds : List TopicSpecification) : Nat :=
  if 0 < (toCreateOf snap ds).length then
    (if (createTopicsFromSpecs cgw (toCreateOf snap ds)).returned = none then 0
     else (toCreateOf snap ds).length)
  else 0

/-- Failures contributed by the update phase: one per failing partition
increase. -/
def updatePhaseFailures (pgw : GatewayPartitions) (snap : Snapshot)
    (ds : List TopicSpecification) : Nat :=
  (runUpdates pgw (toUpdateOf snap ds)).failedCount

/-- Inversion of a successful SyncTopics run into its classification
state. -/
lemma syncTopics_ok_inv {snap : Snapshot} {cgw : GatewayCreate} {pgw : GatewayPartitions}
    {ds : List TopicSpecification} {o : SyncOutcome}
    (h : syncTopics snap cgw pgw ds = Except.ok o) :
    ∃ st, analyzeTopics snap initialAnalyzeState ds = Except.ok st ∧
      o = syncAssemble cgw pgw st := by
  cases hA : analyzeTopics snap initialAnalyzeState ds with
  | error p =>
    simp only [syncTopics, hA] at h
    exact Except.noConfusion h
  | ok st =>
    refine ⟨st, rfl, ?_⟩
    simp only [syncTopics, hA, Except.ok.injEq] at h
    exact h.symm

/-- Unfolding of the failure tally of the execution phases. -/
lemma syncAssemble_failedCount (cgw : GatewayCreate) (pgw : GatewayPartitions)
    (st : AnalyzeState) :
    (syncAssemble cgw pgw st).failedCount =
      (if 0 < st.topicsToCreate.length then
        (if (createTopicsFromSpecs cgw st.topicsToCreate).returned = none then 0
         else st.topicsToCreate.length)
       else 0) + (runUpdates pgw st.topicsToUpdate).failedCount := by
  by_cases hc : 0 < st.topicsToCreate.length <;>
    simp [syncAssemble, hc]

/-- Bridge from a completed classification pass started at the empty
accumulators to the specification-side work lists. -/
lemma analyzeTopics_initial_fields {snap : Snapshot} {ds : List TopicSpecification}
    {st : AnalyzeState} (hA : analyzeTopics snap initialAnalyzeState ds = Except.ok st) :
    st.topicsToCreate = toCreateOf snap ds ∧
    st.topicsToUpdate = toUpdateOf snap ds ∧
    st.cannotScaleDown = scaleDownListOf snap ds := by
  obtain ⟨i1, i2, i3, _, _⟩ := analyzeTopics_ok_characterisation hA
  exact ⟨by simpa [toCreateOf, initialAnalyzeState] using i1,
         by simpa [toUpdateOf, initialAnalyzeState] using i2,
         by simpa [scaleDownListOf, initialAnalyzeState] using i3⟩

/-- C6: a completed SyncTopics run returns an error iff the failure
count aggregated over the create phase and the partition-update phase is
positive (and the returned error carries exactly that count); the
cannotScaleDown report is printed iff the report list is non-empty,
whatever the create and update gateways did (the statement holds for
every pair of gateway oracles). -/
theorem c6_sync_failure_aggregation (snap : Snapshot) (cgw : GatewayCreate)
    (pgw : GatewayPartitions) (ds : List TopicSpecification) (o : SyncOutcome)
    (h : syncTopics snap cgw pgw ds = Except.ok o) :
    (¬ o.returnedFailures = none ↔ 0 < o.failedCount) ∧
    o.returnedFailures = (if 0 < o.failedCount then some o.failedCount else none) ∧
    o.failedCount = createPhaseFailures cgw snap ds + updatePhaseFailures pgw snap ds ∧
    o.cannotScaleDown = scaleDownListOf snap ds ∧
    o.scaleDownReportEmitted = decide (¬ o.cannotScaleDown = []) := by
  obtain ⟨st, hA, ho⟩ := syncTopics_ok_inv h
  obtain ⟨e1, e2, e3⟩ := analyzeTopics_initial_fields hA
  subst ho
  have hret : (syncAssemble cgw pgw st).returnedFailures =
      (if 0 < (syncAssemble cgw pgw st).failedCount
       then some ((syncAssemble cgw pgw st).failedCount) else none) := rfl
  have hcs : (syncAssemble cgw pgw st).cannotScaleDown = st.cannotScaleDown := rfl
  have hem : (syncAssemble cgw pgw st).scaleDownReportEmitted =
      decide (0 < st.cannotScaleDown.length) := rfl
  refine ⟨?_, hret, ?_, ?_, ?_⟩
  · rw [hret]
    by_cases hf : 0 < (syncAssemble cgw pgw st).failedCount <;> simp [hf]
  · rw [syncAssemble_failedCount, e1, e2]
    rfl
  · rw [hcs, e3]
  · rw [hem, hcs]
    exact decide_eq_decide.mpr (by simp [List.length_pos])

/-- Create gateway used by the scenario run: an immediate success for
the single created topic. -/
def cgwScenario : GatewayCreate :=
  fun _ _ => Except.ok [⟨"C", KafkaErrorCode.ErrNoError⟩]

/-- Partitions gateway used by the scenario run: an immediate success
for the single increased topic. -/
def pgwScenario : GatewayPartitions :=
  fun _ => Except.ok [⟨"A", KafkaErrorCode.ErrNoError⟩]

/-- The outcome of the scenario run: 1 created, 1 updated, 1 unchanged,
nothing to scale down, no failures. -/
def scenarioOutcome : SyncOutcome :=
  { returnedFailures := none, createdCount := 1, updatedCount := 1, unchangedCount := 1,
    failedCount := 0, cannotScaleDown := [], scaleDownReportEmitted := false,
    replicationWarnings := [], createCallSpecs := [⟨"C", 6, 1⟩], createAttemptCount := 1,
    partitionCalls := [[⟨"A", 3⟩]] }

/-- C6 witness: the aggregation theorem applied to the concrete scenario
run. -/
theorem c6_witness :
    scenarioOutcome.failedCount =
      createPhaseFailures cgwScenario scenarioSnapshot scenarioSpecs +
      updatePhaseFailures pgwScenario scenarioSnapshot scenarioSpecs ∧
    scenarioOutcome.scaleDownReportEmitted =
      decide (¬ scenarioOutcome.cannotScaleDown = []) := by
  have h := c6_sync_failure_aggregation scenarioSnapshot cgwScenario pgwScenario
    scenarioSpecs scenarioOutcome (by rfl)
  exact ⟨h.2.2.1, h.2.2.2.2⟩

/-- C8: increaseTopicPartitions issues exactly one CreatePartitions
gateway call carrying exactly the one directive {topic, IncreaseTo}, and
returns nil iff the gateway call succeeded with every per-topic result
coded ErrNoError (so any gateway-level error or non-success code is a
terminal error for that update, with no retry); within SyncTopics every
queued update is issued (one single-directive call each, in order, so a
failing update never halts the rest) and each failing update adds
exactly one to the aggregate failure tally. -/
theorem c8_partition_increase_single_shot :
    (∀ (pgw : GatewayPartitions) (t : String) (n : Int),
      (increaseTopicPartitions pgw t n).2 = [[⟨t, n⟩]]) ∧
    (∀ (pgw : GatewayPartitions) (t : String) (n : Int),
      (increaseTopicPartitions pgw t n).1 = none ↔
        ∃ results, pgw [⟨t, n⟩] = Except.ok results ∧
          ∀ r ∈ results, r.Error = KafkaErrorCode.ErrNoError) ∧
    (∀ (snap : Snapshot) (cgw : GatewayCreate) (pgw : GatewayPartitions)
        (ds : List TopicSpecification) (o : SyncOutcome),
      syncTopics snap cgw pgw ds = Except.ok o →
      o.partitionCalls = (toUpdateOf snap ds).map
        (fun u => [⟨u.topic, u.desired.NumPartitions⟩]) ∧
      o.failedCount = createPhaseFailures cgw snap ds +
        ((toUpdateOf snap ds).filter (fun u =>
          (increaseTopicPartitions pgw u.topic u.desired.NumPartitions).1.isSome)).length) := by
  refine ⟨increaseTopicPartitions_calls, ?_, ?_⟩
  · intro pgw t n
    unfold increaseTopicPartitions
    cases hgw : pgw [⟨t, n⟩] with
    | error e =>
      simp only [hgw]
      constructor
      · intro hc
        exact Option.noConfusion hc
      · rintro ⟨results, hres, -⟩
        exact Except.noConfusion hres
    | ok results =>
      simp only [hgw]
      cases hf : results.find? (fun r => decide (r.Error ≠ KafkaErrorCode.ErrNoError)) with
      | some r =>
        simp only
        constructor
        · intro hc
          exact Option.noConfusion hc
        · rintro ⟨results2, hres, hAllOk⟩
          rw [Except.ok.injEq] at hres
          subst hres
          have hmem := List.mem_of_find?_eq_some hf
          have hprop := List.find?_some hf
          rw [decide_eq_true_eq] at hprop
          exact absurd (hAllOk r hmem) hprop
      | none =>
        simp only
        constructor
        · intro _
          refine ⟨results, rfl, ?_⟩
          intro r hr
          have := List.find?_eq_none.mp hf r hr
          simpa using this
        · intro _
          trivial
  · intro snap cgw pgw ds o h
    obtain ⟨st, hA, ho⟩ := syncTopics_ok_inv h
    obtain ⟨e1, e2, _⟩ := analyzeTopics_initial_fields hA
    subst ho
    have hflag : ∀ u ∈ st.topicsToUpdate, u.needsPartitionIncrease = true := by
      intro u hu
      rw [e2] at hu
      simp only [toUpdateOf, List.mem_filterMap] at hu
      obtain ⟨s, _, hs⟩ := hu
      exact updateInfoOf_flag hs
    obtain ⟨r1, r2, _⟩ := runUpdates_characterisation hflag
    have hpc : (syncAssemble cgw pgw st).partitionCalls =
        (runUpdates pgw st.topicsToUpdate).calls := rfl
    constructor
    · rw [hpc, r1, e2]
    · rw [syncAssemble_failedCount, r2, e1, e2]
      rfl

/-- C8 witness: the single-shot theorem applied to the scenario run:
the one queued update for A to 3 partitions became the one
single-directive gateway call, with no failure counted. -/
theorem c8_witness :
    scenarioOutcome.partitionCalls = (toUpdateOf scenarioSnapshot scenarioSpecs).map
      (fun u => [⟨u.topic, u.desired.NumPartitions⟩]) ∧
    scenarioOutcome.failedCount =
      createPhaseFailures cgwScenario scenarioSnapshot scenarioSpecs +
      ((toUpdateOf scenarioSnapshot scenarioSpecs).filter (fun u =>
        (increaseTopicPartitions pgwScenario u.topic u.desired.NumPartitions).1.isSome)).length := by
  exact c8_partition_increase_single_shot.2.2 scenarioSnapshot cgwScenario pgwScenario
    scenarioSpecs scenarioOutcome (by rfl)

/-- Inversion of a queued update: it comes from a present topic whose
desired partition count strictly exceeds the current one, and it carries
that spec's name and desired state. -/
lemma updateInfoOf_some_inv {snap : Snapshot} {s : TopicSpecification}
    {u : topicUpdateInfo} (hs : updateInfoOf snap s = some u) :
    u.topic = s.Topic ∧ ∃ ex, lookupTopic snap s.Topic = some ex ∧
      s.NumPartitions > (ex.Partitions.length : Int) ∧ u.desired = s := by
  cases hl : lookupTopic snap s.Topic with
  | none =>
    simp only [updateInfoOf, hl] at hs
    exact Option.noConfusion hs
  | some ex =>
    simp only [updateInfoOf, hl] at hs
    by_cases hgt : s.NumPartitions > (ex.Partitions.length : Int)
    · rw [if_pos hgt, Option.some.injEq] at hs
      rw [← hs]
      exact ⟨rfl, ex, rfl, hgt, rfl⟩
    · rw [if_neg hgt] at hs
      exact Option.noConfusion hs

/-- C5: in a completed SyncTopics run over a desired list with pairwise
distinct topic names (the data-model invariant for a sync batch), a spec
whose desired partition count is strictly below the matched topic's
current count triggers no CreatePartitions directive for that topic and
is not part of the create batch; it appears in the cannotScaleDown
report with the correct current and desired counts; every queued update
for the other topics is still issued; and the failure tally is exactly
the create-phase plus update-phase failures, phases the spec takes no
part in. -/
theorem c5_no_partition_decrease (snap : Snapshot) (cgw : GatewayCreate)
    (pgw : GatewayPartitions) (ds : List TopicSpecification) (o : SyncOutcome)
    (s : TopicSpecification) (ex : TopicMetadata)
    (hnd : (ds.map TopicSpecification.Topic).Nodup)
    (h : syncTopics snap cgw pgw ds = Except.ok o)
    (hs : s ∈ ds)
    (hex : lookupTopic snap s.Topic = some ex)
    (hlt : s.NumPartitions < (ex.Partitions.length : Int)) :
    (∀ call ∈ o.partitionCalls, ∀ d ∈ call, ¬ d.Topic = s.Topic) ∧
    (⟨s.Topic, (ex.Partitions.length : Int), s.NumPartitions⟩ : topicScaleDownInfo) ∈
      o.cannotScaleDown ∧
    (∀ u ∈ toUpdateOf snap ds, ¬ u.topic = s.Topic) ∧
    s ∉ o.createCallSpecs ∧
    o.partitionCalls = (toUpdateOf snap ds).map
      (fun u => [⟨u.topic, u.desired.NumPartitions⟩]) ∧
    o.failedCount = createPhaseFailures cgw snap ds + updatePhaseFailures pgw snap ds := by
  obtain ⟨st, hA, ho⟩ := syncTopics_ok_inv h
  obtain ⟨e1, e2, e3⟩ := analyzeTopics_initial_fields hA
  subst ho
  have hnotin : ∀ u ∈ toUpdateOf snap ds, ¬ u.topic = s.Topic := by
    intro u hu hcontra
    simp only [toUpdateOf, List.mem_filterMap] at hu
    obtain ⟨s2, hs2mem, hs2⟩ := hu
    obtain ⟨ht, ex2, hl2, hgt2, -⟩ := updateInfoOf_some_inv hs2
    have hTopics : s2.Topic = s.Topic := by rw [← ht, hcontra]
    have hseq : s2 = s := List.inj_on_of_nodup_map hnd hs2mem hs hTopics
    subst hseq
    rw [hex, Option.some.injEq] at hl2
    subst hl2
    omega
  have hflag : ∀ u ∈ st.topicsToUpdate, u.needsPartitionIncrease = true := by
    intro u hu
    rw [e2] at hu
    simp only [toUpdateOf, List.mem_filterMap] at hu
    obtain ⟨s2, -, hs2⟩ := hu
    exact updateInfoOf_flag hs2
  obtain ⟨r1, r2, -⟩ := runUpdates_characterisation hflag
  have hpc : (syncAssemble cgw pgw st).partitionCalls =
      (runUpdates pgw st.topicsToUpdate).calls := rfl
  have hcalls : (syncAssemble cgw pgw st).partitionCalls =
      (toUpdateOf snap ds).map (fun u => [⟨u.topic, u.desired.NumPartitions⟩]) := by
    rw [hpc, r1, e2]
  refine ⟨?_, ?_, hnotin, ?_, hcalls, ?_⟩
  · intro call hcall d hd
    rw [hcalls] at hcall
    simp only [List.mem_map] at hcall
    obtain ⟨u, hu, hc⟩ := hcall
    subst hc
    simp only [List.mem_singleton] at hd
    subst hd
    exact hnotin u hu
  · have hsd : scaleDownOf snap s =
        some ⟨s.Topic, (ex.Partitions.length : Int), s.NumPartitions⟩ := by
      simp [scaleDownOf, hex, hlt]
    have hmem : (⟨s.Topic, (ex.Partitions.length : Int), s.NumPartitions⟩ :
        topicScaleDownInfo) ∈ scaleDownListOf snap ds :=
      List.mem_filterMap.mpr ⟨s, hs, hsd⟩
    have hcs : (syncAssemble cgw pgw st).cannotScaleDown = st.cannotScaleDown := rfl
    rw [hcs, e3]
    exact hmem
  · have hcc : (syncAssemble cgw pgw st).createCallSpecs =
        (if 0 < st.topicsToCreate.length then st.topicsToCreate else []) := rfl
    rw [hcc]
    by_cases hc : 0 < st.topicsToCreate.length
    · rw [if_pos hc, e1]
      intro hmem
      have := List.of_mem_filter hmem
      simp only [specIsCreate, Option.isNone_iff_eq_none, decide_eq_true_eq] at this
      rw [hex] at this
      exact Option.noConfusion this
    · rw [if_neg hc]
      exact List.not_mem_nil s
  · rw [syncAssemble_failedCount, e1, e2]
    rfl

/-- Snapshot for the scale-down witness: topic D currently has two
partitions. -/
def scaleDownSnapshot : Snapshot := [("D", ⟨"D", [⟨0, [1]⟩, ⟨1, [1]⟩]⟩)]

/-- Desired list for the scale-down witness: D down to one partition. -/
def scaleDownSpecs : List TopicSpecification := [⟨"D", 1, 1⟩]

/-- Outcome of the scale-down witness run: nothing created, updated or
failed; D reported as 2 to 1 in the scale-down report; no gateway
activity at all. -/
def scaleDownOutcome : SyncOutcome :=
  ⟨none, 0, 0, 0, 0, [⟨"D", 2, 1⟩], true, [], [], 0, []⟩

/-- C5 witness: the theorem applied to the concrete scale-down run. -/
theorem c5_witness :
    (⟨"D", 2, 1⟩ : topicScaleDownInfo) ∈ scaleDownOutcome.cannotScaleDown ∧
    scaleDownOutcome.partitionCalls = (toUpdateOf scaleDownSnapshot scaleDownSpecs).map
      (fun u => [⟨u.topic, u.desired.NumPartitions⟩]) := by
  have h := c5_no_partition_decrease scaleDownSnapshot cgwIdle pgwIdle scaleDownSpecs
    scaleDownOutcome ⟨"D", 1, 1⟩ ⟨"D", [⟨0, [1]⟩, ⟨1, [1]⟩]⟩
    (by decide) (by rfl) (by decide) rfl (by decide)
  exact ⟨h.2.1, h.2.2.2.2.1⟩

/-- Does the replication check panic on this spec: the topic is matched,
its partition list is non-empty, and partition 0 has no replicas. -/
def panicsAt (snap : Snapshot) (s : TopicSpecification) : Bool :=
  match lookupTopic snap s.Topic with
  | none => false
  | some ex =>
    match ex.Partitions with
    | [] => false
    | p0 :: _ =>
      match p0.Replicas with
      | [] => true
      | _ :: _ => false

/-- An analysis iteration panics exactly on the panicsAt condition. -/
lemma analyzeStep_error_char (snap : Snapshot) (st : AnalyzeState)
    (s : TopicSpecification) :
    (panicsAt snap s = true →
      analyzeStep snap st s = Except.error GoPanic.indexOutOfRange) ∧
    (panicsAt snap s = false → ∃ st', analyzeStep snap st s = Except.ok st') := by
  cases hl : lookupTopic snap s.Topic with
  | none =>
    refine ⟨fun hpan => ?_, fun _ => ?_⟩
    · simp [panicsAt, hl] at hpan
    · exact ⟨{ st with topicsToCreate := st.topicsToCreate ++ [s] },
        by simp [analyzeStep, hl]⟩
  | some ex =>
    cases hp : ex.Partitions with
    | nil =>
      refine ⟨fun hpan => ?_, fun _ => ?_⟩
      · simp [panicsAt, hl, hp] at hpan
      · cases hres : analyzeStep snap st s with
        | ok st2 => exact ⟨st2, rfl⟩
        | error p =>
          exfalso
          simp only [analyzeStep, hl, repCheck, hp] at hres
          exact Except.noConfusion hres
    | cons p0 ps =>
      cases hr : p0.Replicas with
      | nil =>
        refine ⟨fun _ => ?_, fun hpan => ?_⟩
        · simp only [analyzeStep, hl, repCheck, hp, hr]
        · simp [panicsAt, hl, hp, hr] at hpan
      | cons r0 rs =>
        refine ⟨fun hpan => ?_, fun _ => ?_⟩
        · simp [panicsAt, hl, hp, hr] at hpan
        · cases hres : analyzeStep snap st s with
          | ok st2 => exact ⟨st2, rfl⟩
          | error p =>
            exfalso
            simp only [analyzeStep, hl, repCheck, hp, hr] at hres
            exact Except.noConfusion hres

/-- The analysis loop panics exactly when some desired spec triggers the
unguarded replica index. -/
lemma analyzeTopics_error_iff {snap : Snapshot} {ds : List TopicSpecification}
    {st0 : AnalyzeState} :
    analyzeTopics snap st0 ds = Except.error GoPanic.indexOutOfRange ↔
      ∃ s ∈ ds, panicsAt snap s = true := by
  induction ds generalizing st0 with
  | nil => simp [analyzeTopics]
  | cons s rest ih =>
    cases hpan : panicsAt snap s with
    | true =>
      have hstep := (analyzeStep_error_char snap st0 s).1 hpan
      simp only [analyzeTopics, hstep]
      constructor
      · intro _
        exact ⟨s, List.mem_cons_self s rest, hpan⟩
      · intro _
        trivial
    | false =>
      obtain ⟨st1, hstep⟩ := (analyzeStep_error_char snap st0 s).2 hpan
      simp only [analyzeTopics, hstep]
      rw [ih]
      constructor
      · rintro ⟨t, ht, hptp⟩
        exact ⟨t, List.mem_cons_of_mem s ht, hptp⟩
      · rintro ⟨t, ht, hptp⟩
        rcases List.mem_cons.mp ht with heq | hmem
        · subst heq
          rw [hpan] at hptp
          exact Bool.noConfusion hptp
        · exact ⟨t, hmem, hptp⟩

/-- Projection of a queued update to the data its execution consumes:
topic, desired partition count, flag. -/
def projUpd (u : topicUpdateInfo) : String × Int × Bool :=
  (u.topic, u.desired.NumPartitions, u.needsPartitionIncrease)

/-- Relation between two desired specs that differ at most in their
replication factor, and only for a topic present in the snapshot. -/
def rfVariant (snap : Snapshot) (s t : TopicSpecification) : Prop :=
  s.Topic = t.Topic ∧ s.NumPartitions = t.NumPartitions ∧
    (¬ s.ReplicationFactor = t.ReplicationFactor →
      (lookupTopic snap s.Topic).isSome = true)

/-- Relation between analysis states that agree on everything the
execution phases consume (warnings excluded). -/
def AnalyzeRel (st1 st2 : AnalyzeState) : Prop :=
  st1.topicsToCreate = st2.topicsToCreate ∧
  st1.topicsToUpdate.map projUpd = st2.topicsToUpdate.map projUpd ∧
  st1.cannotScaleDown = st2.cannotScaleDown ∧
  st1.unchangedCount = st2.unchangedCount

/-- Two specs related by rfVariant are equal when their topic is absent
from the snapshot. -/
lemma rfVariant_eq_of_absent {snap : Snapshot} {s t : TopicSpecification}
    (hv : rfVariant snap s t) (habs : lookupTopic snap s.Topic = none) : s = t := by
  obtain ⟨hT, hN, hRF⟩ := hv
  by_cases hrf : s.ReplicationFactor = t.ReplicationFactor
  · cases s; cases t
    simp only at hT hN hrf
    simp [hT, hN, hrf]
  · have := hRF hrf
    rw [habs] at this
    exact Bool.noConfusion this

/-- panicsAt agrees on rfVariant-related specs. -/
lemma panicsAt_rfVariant {snap : Snapshot} {s t : TopicSpecification}
    (hv : rfVariant snap s t) : panicsAt snap s = panicsAt snap t := by
  unfold panicsAt
  rw [hv.1]

/-- The panic condition transfers along a pointwise rfVariant list
relation. -/
lemma forall₂_panic_iff {snap : Snapshot} {ds1 ds2 : List TopicSpecification}
    (hf : List.Forall₂ (rfVariant snap) ds1 ds2) :
    (∃ s ∈ ds1, panicsAt snap s = true) ↔ (∃ t ∈ ds2, panicsAt snap t = true) := by
  induction hf with
  | nil => simp
  | @cons a b as bs hab hrest ih =>
    have hp := panicsAt_rfVariant hab
    simp only [List.mem_cons, exists_eq_or_imp]
    rw [hp, ih]

/-- specIsCreate depends only on the topic name. -/
lemma specIsCreate_rfVariant {snap : Snapshot} {s t : TopicSpecification}
    (hv : rfVariant snap s t) : specIsCreate snap s = specIsCreate snap t := by
  unfold specIsCreate
  rw [hv.1]

/-- specIsUnchanged depends only on the topic name and the partition
count. -/
lemma specIsUnchanged_rfVariant {snap : Snapshot} {s t : TopicSpecification}
    (hv : rfVariant snap s t) : specIsUnchanged snap s = specIsUnchanged snap t := by
  unfold specIsUnchanged
  rw [hv.1, hv.2.1]

/-- scaleDownOf depends only on the topic name and the partition count. -/
lemma scaleDownOf_rfVariant {snap : Snapshot} {s t : TopicSpecification}
    (hv : rfVariant snap s t) : scaleDownOf snap s = scaleDownOf snap t := by
  unfold scaleDownOf
  rw [hv.1, hv.2.1]

/-- Queued updates of rfVariant-related specs agree on everything their
execution consumes. -/
lemma updateInfoOf_projUpd_rfVariant {snap : Snapshot} {s t : TopicSpecification}
    (hv : rfVariant snap s t) :
    (updateInfoOf snap s).map projUpd = (updateInfoOf snap t).map projUpd := by
  obtain ⟨hT, hN, -⟩ := hv
  unfold updateInfoOf
  rw [hT, hN]
  cases hl : lookupTopic snap t.Topic with
  | none => rfl
  | some ex =>
    by_cases hgt : t.NumPartitions > (ex.Partitions.length : Int)
    · simp only [if_pos hgt, Option.map_some]
      simp [projUpd, hT, hN]
    · simp only [if_neg hgt, Option.map_none]

/-- Classification outputs transfer along a pointwise rfVariant list
relation: the create batch, the update projections, the scale-down
reports and the unchanged tally are all identical. -/
lemma classification_transfer {snap : Snapshot} {ds1 ds2 : List TopicSpecification}
    (hf : List.Forall₂ (rfVariant snap) ds1 ds2) :
    ds1.filter (specIsCreate snap) = ds2.filter (specIsCreate snap) ∧
    (ds1.filterMap (updateInfoOf snap)).map projUpd =
      (ds2.filterMap (updateInfoOf snap)).map projUpd ∧
    ds1.filterMap (scaleDownOf snap) = ds2.filterMap (scaleDownOf snap) ∧
    (ds1.filter (specIsUnchanged snap)).length =
      (ds2.filter (specIsUnchanged snap)).length := by
  induction hf with
  | nil => exact ⟨rfl, rfl, rfl, rfl⟩
  | @cons a b as bs hab hrest ih =>
    obtain ⟨i1, i2, i3, i4⟩ := ih
    refine ⟨?_, ?_, ?_, ?_⟩
    · rw [List.filter_cons, List.filter_cons, specIsCreate_rfVariant hab]
      by_cases hc : specIsCreate snap b = true
      · have habs : lookupTopic snap a.Topic = none := by
          have : (lookupTopic snap b.Topic).isNone = true := hc
          rw [hab.1]
          exact Option.isNone_iff_eq_none.mp this
        have hae : a = b := rfVariant_eq_of_absent hab habs
        rw [if_pos hc, if_pos hc, hae, i1]
      · rw [if_neg hc, if_neg hc, i1]
    · rw [List.filterMap_cons, List.filterMap_cons]
      have hmap := updateInfoOf_projUpd_rfVariant hab
      cases hu1 : updateInfoOf snap a with
      | none =>
        cases hu2 : updateInfoOf snap b with
        | none => simpa using i2
        | some u2 =>
          rw [hu1, hu2] at hmap
          simp at hmap
      | some u1 =>
        cases hu2 : updateInfoOf snap b with
        | none =>
          rw [hu1, hu2] at hmap
          simp at hmap
        | some u2 =>
          rw [hu1, hu2] at hmap
          have hmap2 : projUpd u1 = projUpd u2 := by simpa using hmap
          simpa [hmap2] using i2
    · rw [List.filterMap_cons, List.filterMap_cons, scaleDownOf_rfVariant hab]
      cases scaleDownOf snap b with
      | none => simpa using i3
      | some v => simpa using i3
    · rw [List.filter_cons, List.filter_cons, specIsUnchanged_rfVariant hab]
      by_cases hc : specIsUnchanged snap b = true
      · rw [if_pos hc, if_pos hc]
        simp [i4]
      · rw [if_neg hc, if_neg hc, i4]

/-- The update phase consumes only the projections of the queued
updates. -/
lemma runUpdates_congr {pgw : GatewayPartitions} {us1 us2 : List topicUpdateInfo}
    (h : us1.map projUpd = us2.map projUpd) :
    runUpdates pgw us1 = runUpdates pgw us2 := by
  induction us1 generalizing us2 with
  | nil =>
    cases us2 with
    | nil => rfl
    | cons b bs => simp at h
  | cons a as ih =>
    cases us2 with
    | nil => simp at h
    | cons b bs =>
      simp only [List.map_cons, List.cons.injEq] at h
      obtain ⟨hab, hrest⟩ := h
      simp only [projUpd, Prod.mk.injEq] at hab
      obtain ⟨h1, h2, h3⟩ := hab
      simp only [runUpdates, h1, h2, h3, ih hrest]

/-- Forgetting the replication warnings of an outcome. -/
def eraseWarnings (o : SyncOutcome) : SyncOutcome :=
  { returnedFailures := o.returnedFailures, createdCount := o.createdCount,
    updatedCount := o.updatedCount, unchangedCount := o.unchangedCount,
    failedCount := o.failedCount, cannotScaleDown := o.cannotScaleDown,
    scaleDownReportEmitted := o.scaleDownReportEmitted, replicationWarnings := [],
    createCallSpecs := o.createCallSpecs, createAttemptCount := o.createAttemptCount,
    partitionCalls := o.partitionCalls }

/-- The execution phases produce warning-erased outcomes that agree on
AnalyzeRel-related analysis states. -/
lemma syncAssemble_congr {cgw : GatewayCreate} {pgw : GatewayPartitions}
    {st1 st2 : AnalyzeState} (h : AnalyzeRel st1 st2) :
    eraseWarnings (syncAssemble cgw pgw st1) = eraseWarnings (syncAssemble cgw pgw st2) := by
  obtain ⟨h1, h2, h3, h4⟩ := h
  have hru : runUpdates pgw st1.topicsToUpdate = runUpdates pgw st2.topicsToUpdate :=
    runUpdates_congr h2
  simp only [syncAssemble, eraseWarnings]
  rw [h1, h3, h4, hru]

/-- C7: changing only replication factors of desired specs that name
existing topics changes nothing observable except the warning
diagnostics — the classification (including the panic behaviour), the
work lists' execution content, the counters, and the full trace of
gateway calls coincide, for every pair of gateway oracles; and a spec
naming an existing topic with matching partition count is classified
Unchanged (and queued for no operation) regardless of its replication
factor, since the classification views never consult it. -/
theorem c7_replication_mismatch_frame :
    (∀ (snap : Snapshot) (cgw : GatewayCreate) (pgw : GatewayPartitions)
        (ds1 ds2 : List TopicSpecification),
      List.Forall₂ (rfVariant snap) ds1 ds2 →
      Except.map eraseWarnings (syncTopics snap cgw pgw ds1) =
        Except.map eraseWarnings (syncTopics snap cgw pgw ds2)) ∧
    (∀ (snap : Snapshot) (s : TopicSpecification) (ex : TopicMetadata),
      lookupTopic snap s.Topic = some ex →
      s.NumPartitions = (ex.Partitions.length : Int) →
      specIsUnchanged snap s = true ∧ updateInfoOf snap s = none ∧
        scaleDownOf snap s = none ∧ specIsCreate snap s = false) := by
  constructor
  · intro snap cgw pgw ds1 ds2 hf
    cases hA1 : analyzeTopics snap initialAnalyzeState ds1 with
    | error p =>
      have hp : p = GoPanic.indexOutOfRange := by cases p; rfl
      subst hp
      have hex1 : ∃ s ∈ ds1, panicsAt snap s = true := analyzeTopics_error_iff.mp hA1
      have hex2 := (forall₂_panic_iff hf).mp hex1
      have hA2 : analyzeTopics snap initialAnalyzeState ds2 =
          Except.error GoPanic.indexOutOfRange := analyzeTopics_error_iff.mpr hex2
      simp [syncTopics, hA1, hA2]
    | ok st1 =>
      cases hA2 : analyzeTopics snap initialAnalyzeState ds2 with
      | error p =>
        exfalso
        have hp : p = GoPanic.indexOutOfRange := by cases p; rfl
        subst hp
        have hex2 : ∃ t ∈ ds2, panicsAt snap t = true := analyzeTopics_error_iff.mp hA2
        have hex1 := (forall₂_panic_iff hf).mpr hex2
        have hA1b : analyzeTopics snap initialAnalyzeState ds1 =
            Except.error GoPanic.indexOutOfRange := analyzeTopics_error_iff.mpr hex1
        rw [hA1] at hA1b
        exact Except.noConfusion hA1b
      | ok st2 =>
        have hrel : AnalyzeRel st1 st2 := by
          obtain ⟨t1, t2, t3, t4⟩ := classification_transfer hf
          obtain ⟨a1, a2, a3, a4, -⟩ := analyzeTopics_ok_characterisation hA1
          obtain ⟨b1, b2, b3, b4, -⟩ := analyzeTopics_ok_characterisation hA2
          refine ⟨?_, ?_, ?_, ?_⟩
          · rw [a1, b1]
            simpa [initialAnalyzeState] using t1
          · rw [a2, b2]
            simpa [initialAnalyzeState] using t2
          · rw [a3, b3]
            simpa [initialAnalyzeState] using t3
          · rw [a4, b4]
            simpa [initialAnalyzeState] using t4
        simp only [syncTopics, hA1, hA2, Except.map]
        rw [syncAssemble_congr hrel]
  · intro snap s ex hex heq
    have h1 : ¬ s.NumPartitions > (ex.Partitions.length : Int) := by omega
    have h2 : ¬ s.NumPartitions < (ex.Partitions.length : Int) := by omega
    refine ⟨?_, ?_, ?_, ?_⟩
    · simp [specIsUnchanged, hex, heq]
    · simp [updateInfoOf, hex, h1]
    · simp [scaleDownOf, hex, h2]
    · simp [specIsCreate, hex]

/-- Desired list identical to the scenario list except that B declares
replication factor 5 while the broker sample is 1. -/
def scenarioSpecsRF : List TopicSpecification :=
  [⟨"A", 3, 1⟩, ⟨"B", 1, 5⟩, ⟨"C", 6, 1⟩]

/-- C7 witness: the frame theorem applied to the scenario run and its
B-replication-factor variant. -/
theorem c7_witness :
    Except.map eraseWarnings
      (syncTopics scenarioSnapshot cgwScenario pgwScenario scenarioSpecs) =
    Except.map eraseWarnings
      (syncTopics scenarioSnapshot cgwScenario pgwScenario scenarioSpecsRF) := by
  have hf : List.Forall₂ (rfVariant scenarioSnapshot) scenarioSpecs scenarioSpecsRF := by
    refine List.Forall₂.cons ⟨rfl, rfl, ?_⟩
      (List.Forall₂.cons ⟨rfl, rfl, ?_⟩
        (List.Forall₂.cons ⟨rfl, rfl, ?_⟩ List.Forall₂.nil))
    · intro h
      exact absurd rfl h
    · intro _
      rfl
    · intro h
      exact absurd rfl h
  exact c7_replication_mismatch_frame.1 scenarioSnapshot cgwScenario pgwScenario
    scenarioSpecs scenarioSpecsRF hf

/-- Embedding of the YAML TopicConfig record: one parsed desired-state
record. -/
structure TopicConfig where
  Name : String
  Partitions : Int
  ReplicationFactor : Int
  Description : String
deriving DecidableEq

/-- Embedding of the parsed TopicsConfig document. -/
structure TopicsConfig where
  Topics : List TopicConfig
deriving DecidableEq

/-- The validation-and-conversion loop of the loader variant with
validation: reject the first record with an empty name, a non-positive
partition count, or a non-positive replication factor, otherwise convert
in order. -/
def validateLoop : List TopicConfig → Except String (List TopicSpecification)
  | [] => .ok []
  | topic :: rest =>
    if topic.Name = "" then .error "topic name cannot be empty"
    else if topic.Partitions ≤ 0 then
      .error ("topic " ++ topic.Name ++ " must have at least 1 partition")
    else if topic.ReplicationFactor ≤ 0 then
      .error ("topic " ++ topic.Name ++ " must have at least 1 replication factor")
    else
      match validateLoop rest with
      | .error e => .error e
      | .ok specs =>
        .ok (⟨topic.Name, topic.Partitions, topic.ReplicationFactor⟩ :: specs)

namespace ValidatedLoader

/-- Embedding of GetAllTopicConfigs from the loader variant that
validates (the file read and YAML parse preceding the loop are external
I/O, so the embedding starts from the parsed TopicsConfig). -/
def GetAllTopicConfigs (config : TopicsConfig) : Except String (List TopicSpecification) :=
  validateLoop config.Topics

end ValidatedLoader

namespace PassthroughLoader

/-- Embedding of GetAllTopicConfigs from the loader variant without
validation: every parsed record is converted and passed through. -/
def GetAllTopicConfigs (config : TopicsConfig) : Except String (List TopicSpecification) :=
  .ok (config.Topics.map fun topic =>
    ⟨topic.Name, topic.Partitions, topic.ReplicationFactor⟩)

end PassthroughLoader

/-- An invalid record makes the validating loop fail. -/
lemma validateLoop_error_of_invalid {ts : List TopicConfig}
    (h : ∃ t ∈ ts, t.Name = "" ∨ t.Partitions ≤ 0 ∨ t.ReplicationFactor ≤ 0) :
    ∃ e, validateLoop ts = Except.error e := by
  induction ts with
  | nil => simp at h
  | cons t rest ih =>
    by_cases h1 : t.Name = ""
    · exact ⟨"topic name cannot be empty", by simp [validateLoop, h1]⟩
    · by_cases h2 : t.Partitions ≤ 0
      · exact ⟨"topic " ++ t.Name ++ " must have at least 1 partition",
          by simp [validateLoop, h1, h2]⟩
      · by_cases h3 : t.ReplicationFactor ≤ 0
        · exact ⟨"topic " ++ t.Name ++ " must have at least 1 replication factor",
            by simp [validateLoop, h1, h2, h3]⟩
        · have hrest : ∃ t' ∈ rest,
              t'.Name = "" ∨ t'.Partitions ≤ 0 ∨ t'.ReplicationFactor ≤ 0 := by
            rcases h with ⟨t', ht', hbad⟩
            rcases List.mem_cons.mp ht' with heq | hmem
            · subst heq
              rcases hbad with hb | hb | hb
              · exact absurd hb h1
              · exact absurd hb h2
              · exact absurd hb h3
            · exact ⟨t', hmem, hbad⟩
          obtain ⟨e, he⟩ := ih hrest
          exact ⟨e, by simp [validateLoop, h1, h2, h3, he]⟩

/-- A successful validating loop implies every record was valid and the
output is the in-order conversion. -/
lemma validateLoop_ok_inv {ts : List TopicConfig} {specs : List TopicSpecification}
    (h : validateLoop ts = Except.ok specs) :
    specs = ts.map (fun t =>
      (⟨t.Name, t.Partitions, t.ReplicationFactor⟩ : TopicSpecification)) ∧
    ∀ t ∈ ts, ¬ t.Name = "" ∧ 0 < t.Partitions ∧ 0 < t.ReplicationFactor := by
  induction ts generalizing specs with
  | nil =>
    simp only [validateLoop, Except.ok.injEq] at h
    subst h
    simp
  | cons t rest ih =>
    by_cases h1 : t.Name = ""
    · simp [validateLoop, h1] at h
    · by_cases h2 : t.Partitions ≤ 0
      · simp [validateLoop, h1, h2] at h
      · by_cases h3 : t.ReplicationFactor ≤ 0
        · simp [validateLoop, h1, h2, h3] at h
        · simp only [validateLoop, if_neg h1, if_neg h2, if_neg h3] at h
          cases hrec : validateLoop rest with
          | error e =>
            rw [hrec] at h
            exact Except.noConfusion h
          | ok specs2 =>
            rw [hrec, Except.ok.injEq] at h
            obtain ⟨hmap, hall⟩ := ih hrec
            subst h
            constructor
            · simp [hmap]
            · intro t' ht'
              rcases List.mem_cons.mp ht' with heq | hmem
              · subst heq
                exact ⟨h1, by omega, by omega⟩
              · exact hall t' hmem

/-- C9 counterexample: the loader variant without validation (the second
GetAllTopicConfigs in the sources) accepts a parsed record with an empty
name and non-positive counts and passes it through to the caller, so
loading does not fail on it. -/
theorem c9_counterexample :
    (⟨"", 0, 0, ""⟩ : TopicConfig).Name = "" ∧
    PassthroughLoader.GetAllTopicConfigs ⟨[⟨"", 0, 0, ""⟩]⟩ =
      Except.ok [⟨"", 0, 0⟩] := by
  exact ⟨rfl, rfl⟩

/-- C9 amended: the loader variant with validation fails with an error
whenever any parsed record has an empty name, a non-positive partition
count, or a non-positive replication factor, and on success every record
was valid and is converted in order (so no invalid record reaches the
execution layer through it); the other loader variant performs no
validation and passes every record through. -/
theorem c9_desired_state_validation :
    (∀ config : TopicsConfig,
      (∃ t ∈ config.Topics,
        t.Name = "" ∨ t.Partitions ≤ 0 ∨ t.ReplicationFactor ≤ 0) →
      ∃ e, ValidatedLoader.GetAllTopicConfigs config = Except.error e) ∧
    (∀ (config : TopicsConfig) (specs : List TopicSpecification),
      ValidatedLoader.GetAllTopicConfigs config = Except.ok specs →
      specs = config.Topics.map (fun t =>
        (⟨t.Name, t.Partitions, t.ReplicationFactor⟩ : TopicSpecification)) ∧
      ∀ t ∈ config.Topics,
        ¬ t.Name = "" ∧ 0 < t.Partitions ∧ 0 < t.ReplicationFactor) ∧
    (∀ config : TopicsConfig,
      PassthroughLoader.GetAllTopicConfigs config =
        Except.ok (config.Topics.map (fun t =>
          (⟨t.Name, t.Partitions, t.ReplicationFactor⟩ : TopicSpecification)))) := by
  refine ⟨?_, ?_, ?_⟩
  · intro config hbad
    exact validateLoop_error_of_invalid hbad
  · intro config specs h
    exact validateLoop_ok_inv h
  · intro config
    rfl

/-- C9 witness: the validation theorem applied to a concrete one-record
valid configuration. -/
theorem c9_witness :
    ([⟨"orders", 2, 3⟩] : List TopicSpecification) =
      ([(⟨"orders", 2, 3, "d"⟩ : TopicConfig)]).map (fun t =>
        (⟨t.Name, t.Partitions, t.ReplicationFactor⟩ : TopicSpecification)) := by
  exact ((c9_desired_state_validation.2.1 ⟨[⟨"orders", 2, 3, "d"⟩]⟩
    [⟨"orders", 2, 3⟩] (by rfl)).1)
